import Mathlib

/-
Verification of the Markdown renderer `renderMarkdown` from
src/static/js/app.js (lines 91-140) of the Christina repository.

The renderer is a fixed chain of JavaScript regex replace passes over a
string.  We embed it as computable functions over `List Char`, one
definition per replace pass, in the exact order of the source:

  escape (& then < then >), fenced code blocks, inline code, bold,
  italic, headings h3/h2/h1, links, unordered-list lines, ul wrapping,
  ordered-list lines, blockquotes, paragraph breaks, line breaks, and
  the final paragraph wrap.

JavaScript regex semantics modelled here: a global replace scans left to
right, replaces the leftmost match and resumes after it; `.` matches any
character except a newline; `^`/`$` with the `m` flag anchor at line
boundaries ('\n' is the line terminator); greedy character-class
repetitions followed by a required delimiter match the maximal run;
lazy repetitions stop at the earliest position where the tail matches.
The scanners that resume after a match use an explicit fuel argument
(initialised to the input length, an upper bound on the number of scan
steps) so that every definition is structurally recursive and reduces
inside the kernel.
-/

set_option autoImplicit false
set_option maxRecDepth 100000

/-- The backtick character (U+0060). -/
def btick : Char := Char.ofNat 96

/-! ### Stage 1: HTML escaping (app.js lines 93-96)
`text.replace(/&/g,'&amp;').replace(/</g,'&lt;').replace(/>/g,'&gt;')` -/

/-- Replace every occurrence of the single character `t` by `rep`
(the semantics of `.replace(/t/g, rep)` for a one-character pattern). -/
def repChar (t : Char) (rep : List Char) : List Char → List Char
  | [] => []
  | c :: r => if c = t then rep ++ repChar t rep r else c :: repChar t rep r

/-- First escape pass: `&` to `&amp;`. -/
def repAmp (s : List Char) : List Char := repChar '&' "&amp;".data s

/-- Second escape pass: `<` to `&lt;`. -/
def repLt (s : List Char) : List Char := repChar '<' "&lt;".data s

/-- Third escape pass: `>` to `&gt;`. -/
def repGt (s : List Char) : List Char := repChar '>' "&gt;".data s

/-- The full escape stage, in source order: `&` first, then `<`, then `>`. -/
def escapeL (s : List Char) : List Char := repGt (repLt (repAmp s))

/-! ### Generic global-replace scanner -/

/-- Global regex replace: `tm` tries to match at the current position and
returns the replacement together with the rest of the input after the
match.  On success the scan resumes after the match; on failure it moves
one character right.  `fuel` bounds the number of steps; every matcher
used below consumes at least one character, so `fuel = s.length`
reproduces the JavaScript behaviour exactly. -/
def scanRepl (tm : List Char → Option (List Char × List Char)) :
    Nat → List Char → List Char
  | _, [] => []
  | 0, s => s
  | fuel + 1, c :: rest =>
    match tm (c :: rest) with
    | some (a, r) => a ++ scanRepl tm fuel r
    | none => c :: scanRepl tm fuel rest

/-! ### Stage 2: fenced code blocks (app.js lines 99-101)
`/```(\w*)\n([\s\S]*?)```/g` replaced by
`<pre><code class="language-LANG">CODE.trim()</code></pre>` -/

/-- JavaScript `\w`: ASCII letter, digit or underscore. -/
def wordChar (c : Char) : Bool := c.isAlphanum || c = '_'

/-- JavaScript `String.prototype.trim`: drop whitespace from both ends
(space, tab, carriage return, newline). -/
def trimL (l : List Char) : List Char :=
  ((l.dropWhile Char.isWhitespace).reverse.dropWhile Char.isWhitespace).reverse

/-- Split at the first occurrence of a triple backtick: returns the part
before it and the part after it (the lazy `([\s\S]*?)` followed by
a literal triple backtick). -/
def splitTriple : List Char → Option (List Char × List Char)
  | c1 :: c2 :: c3 :: rest =>
    if c1 = btick ∧ c2 = btick ∧ c3 = btick then some ([], rest)
    else
      match splitTriple (c2 :: c3 :: rest) with
      | some (a, b) => some (c1 :: a, b)
      | none => none
  | _ => none

/-- Match the fenced-code-block regex at the head of the input: three
backticks, a greedy run of word characters (the language tag), a
newline, then the lazy body up to the next triple backtick. -/
def tryFence (s : List Char) : Option (List Char × List Char) :=
  match s with
  | c1 :: c2 :: c3 :: rest =>
    if c1 = btick ∧ c2 = btick ∧ c3 = btick then
      let lang := rest.takeWhile wordChar
      match rest.dropWhile wordChar with
      | '\n' :: body =>
        match splitTriple body with
        | some (content, rest2) =>
          some ("<pre><code class=\"language-".data ++ lang ++ "\">".data
                  ++ trimL content ++ "</code></pre>".data, rest2)
        | none => none
      | _ => none
    else none
  | _ => none

/-- The fenced-code-block stage. -/
def fenceStage (s : List Char) : List Char := scanRepl tryFence s.length s

/-! ### Stage 3: inline code (app.js line 104)
`` /`([^`]+)`/g `` replaced by `<code>$1</code>` -/

/-- Match the inline-code regex at the head: a backtick, a nonempty
maximal run of non-backticks, a closing backtick. -/
def tryCodeSpan (s : List Char) : Option (List Char × List Char) :=
  match s with
  | c :: rest =>
    if c = btick then
      let body := rest.takeWhile (fun d => d != btick)
      match rest.dropWhile (fun d => d != btick) with
      | _ :: rest2 =>
        if body.isEmpty then none
        else some ("<code>".data ++ body ++ "</code>".data, rest2)
      | [] => none
    else none
  | [] => none

/-- The inline-code stage. -/
def codeSpanStage (s : List Char) : List Char := scanRepl tryCodeSpan s.length s

/-! ### Stage 4: bold (app.js line 107)
`/\*\*(.+?)\*\*/g` replaced by `<strong>$1</strong>` -/

/-- Lazy scan to the earliest `**`, failing on a newline (`.` does not
match a newline).  Returns the skipped content and the rest after `**`. -/
def lazyTo2Star : List Char → Option (List Char × List Char)
  | '*' :: '*' :: rest => some ([], rest)
  | c :: rest =>
    if c = '\n' then none
    else
      match lazyTo2Star rest with
      | some (a, b) => some (c :: a, b)
      | none => none
  | [] => none

/-- Match the bold regex at the head: `**`, a lazy nonempty run of
non-newline characters, `**`. -/
def tryBold (s : List Char) : Option (List Char × List Char) :=
  match s with
  | '*' :: '*' :: c :: rest =>
    if c = '\n' then none
    else
      match lazyTo2Star rest with
      | some (a, b) => some ("<strong>".data ++ c :: a ++ "</strong>".data, b)
      | none => none
  | _ => none

/-- The bold stage. -/
def boldStage (s : List Char) : List Char := scanRepl tryBold s.length s

/-! ### Stage 5: italic (app.js line 110)
`/\*(.+?)\*/g` replaced by `<em>$1</em>` -/

/-- Lazy scan to the earliest `*`, failing on a newline. -/
def lazyTo1Star : List Char → Option (List Char × List Char)
  | '*' :: rest => some ([], rest)
  | c :: rest =>
    if c = '\n' then none
    else
      match lazyTo1Star rest with
      | some (a, b) => some (c :: a, b)
      | none => none
  | [] => none

/-- Match the italic regex at the head: `*`, a lazy nonempty run of
non-newline characters, `*`. -/
def tryItalic (s : List Char) : Option (List Char × List Char) :=
  match s with
  | '*' :: c :: rest =>
    if c = '\n' then none
    else
      match lazyTo1Star rest with
      | some (a, b) => some ("<em>".data ++ c :: a ++ "</em>".data, b)
      | none => none
  | _ => none

/-- The italic stage. -/
def italicStage (s : List Char) : List Char := scanRepl tryItalic s.length s

/-! ### Line-based passes (`/^...$/gm`): split on '\n', rewrite each
line, join with '\n'.  The rewrites never introduce '\n', so composing
line passes agrees with composing the multiline regex replaces. -/

/-- Split on newline characters (every '\n' separates two lines). -/
def splitNl : List Char → List (List Char)
  | [] => [[]]
  | '\n' :: rest => [] :: splitNl rest
  | c :: rest =>
    match splitNl rest with
    | l :: ls => (c :: l) :: ls
    | [] => [[c]]

/-- Join lines with newline characters. -/
def joinNl : List (List Char) → List Char
  | [] => []
  | [l] => l
  | l :: ls => l ++ '\n' :: joinNl ls

/-- Apply a line rewrite to every line of the text. -/
def mapLines (f : List Char → List Char) (s : List Char) : List Char :=
  joinNl ((splitNl s).map f)

/-! ### Stage 6: headings (app.js lines 113-115)
`/^### (.+)$/gm`, then `/^## (.+)$/gm`, then `/^# (.+)$/gm` -/

/-- Line rule for `/^### (.+)$/gm`. -/
def h3Rule (l : List Char) : List Char :=
  match l with
  | '#' :: '#' :: '#' :: ' ' :: rest =>
    if rest.isEmpty then l else "<h3>".data ++ rest ++ "</h3>".data
  | _ => l

/-- Line rule for `/^## (.+)$/gm`. -/
def h2Rule (l : List Char) : List Char :=
  match l with
  | '#' :: '#' :: ' ' :: rest =>
    if rest.isEmpty then l else "<h2>".data ++ rest ++ "</h2>".data
  | _ => l

/-- Line rule for `/^# (.+)$/gm`. -/
def h1Rule (l : List Char) : List Char :=
  match l with
  | '#' :: ' ' :: rest =>
    if rest.isEmpty then l else "<h1>".data ++ rest ++ "</h1>".data
  | _ => l

/-! ### Stage 7: links (app.js line 118)
`/\[([^\]]+)\]\(([^)]+)\)/g` replaced by
`<a href="$2" target="_blank" rel="noopener">$1</a>` -/

/-- Match the link regex at the head: `[`, a nonempty maximal run of
non-`]`, `]`, `(`, a nonempty maximal run of non-`)`, `)`. -/
def tryLink (s : List Char) : Option (List Char × List Char) :=
  match s with
  | '[' :: rest =>
    let label := rest.takeWhile (fun d => d != ']')
    match rest.dropWhile (fun d => d != ']') with
    | ']' :: '(' :: rest2 =>
      if label.isEmpty then none
      else
        let url := rest2.takeWhile (fun d => d != ')')
        match rest2.dropWhile (fun d => d != ')') with
        | ')' :: rest3 =>
          if url.isEmpty then none
          else some ("<a href=\"".data ++ url
                       ++ "\" target=\"_blank\" rel=\"noopener\">".data
                       ++ label ++ "</a>".data, rest3)
        | _ => none
    | _ => none
  | _ => none

/-- The link stage. -/
def linkStage (s : List Char) : List Char := scanRepl tryLink s.length s

/-! ### Stage 8: unordered lists (app.js lines 121-122)
`/^- (.+)$/gm` to `<li>$1</li>`, then
`/(<li>.*<\/li>\n?)+/g` to `<ul>$&</ul>` -/

/-- Line rule for `/^- (.+)$/gm`. -/
def ulLineRule (l : List Char) : List Char :=
  match l with
  | '-' :: ' ' :: rest =>
    if rest.isEmpty then l else "<li>".data ++ rest ++ "</li>".data
  | _ => l

/-- Split a line at the last occurrence of `</li>`: returns the prefix
up to and including that `</li>` (the greedy `.*<\/li>`) and the rest
of the line. -/
def lastClose (l : List Char) : Option (List Char × List Char) :=
  match l with
  | [] => none
  | c :: rest =>
    match lastClose rest with
    | some (a, b) => some (c :: a, b)
    | none =>
      match c :: rest with
      | '<' :: '/' :: 'l' :: 'i' :: '>' :: after => some ("</li>".data, after)
      | _ => none

/-- One iteration of the group `(<li>.*<\/li>\n?)+`: a literal `<li>`,
then within the current line the greedy `.*` up to the last `</li>`,
then an optional newline.  Returns the consumed text and the rest. -/
def liStep (s : List Char) : Option (List Char × List Char) :=
  match s with
  | '<' :: 'l' :: 'i' :: '>' :: rest =>
    let line := rest.takeWhile (fun d => d != '\n')
    let restLine := rest.dropWhile (fun d => d != '\n')
    match lastClose line with
    | some (a, b) =>
      match b, restLine with
      | [], '\n' :: r => some ("<li>".data ++ a ++ ['\n'], r)
      | _, _ => some ("<li>".data ++ a, b ++ restLine)
    | none => none
  | _ => none

/-- Greedy repetition of `liStep` (the `+` of the group), fuelled. -/
def ulChainF : Nat → List Char → Option (List Char × List Char)
  | 0, _ => none
  | fuel + 1, s =>
    match liStep s with
    | some (a, rest) =>
      match ulChainF fuel rest with
      | some (a2, rest2) => some (a ++ a2, rest2)
      | none => some (a, rest)
    | none => none

/-- Match `(<li>.*<\/li>\n?)+` at the head and wrap the whole match in
`<ul>`/`</ul>` (the `$&` replacement). -/
def tryUl (s : List Char) : Option (List Char × List Char) :=
  match ulChainF (s.length + 1) s with
  | some (a, rest) => some ("<ul>".data ++ a ++ "</ul>".data, rest)
  | none => none

/-- The ul-wrapping stage. -/
def ulWrapStage (s : List Char) : List Char := scanRepl tryUl s.length s

/-! ### Stage 9: ordered lists (app.js line 125)
`/^\d+\. (.+)$/gm` replaced by `<li>$1</li>` -/

/-- Line rule for `/^\d+\. (.+)$/gm`: a nonempty maximal digit run,
a period, a space, a nonempty rest. -/
def olRule (l : List Char) : List Char :=
  let ds := l.takeWhile Char.isDigit
  match l.dropWhile Char.isDigit with
  | '.' :: ' ' :: rest =>
    if ds.isEmpty || rest.isEmpty then l
    else "<li>".data ++ rest ++ "</li>".data
  | _ => l

/-! ### Stage 10: blockquotes (app.js line 128)
`/^> (.+)$/gm` replaced by `<blockquote>$1</blockquote>` -/

/-- Line rule for `/^> (.+)$/gm`: a literal `>` (not the escaped
`&gt;`), a space, a nonempty rest. -/
def bqRule (l : List Char) : List Char :=
  match l with
  | '>' :: ' ' :: rest =>
    if rest.isEmpty then l
    else "<blockquote>".data ++ rest ++ "</blockquote>".data
  | _ => l

/-! ### Stage 11: paragraph and line breaks (app.js lines 131-132)
`/\n\n/g` to `</p><p>`, then `/\n/g` to `<br>` -/

/-- Replace every pair of consecutive newlines by `</p><p>`. -/
def paraBreak : List Char → List Char
  | '\n' :: '\n' :: rest => "</p><p>".data ++ paraBreak rest
  | c :: rest => c :: paraBreak rest
  | [] => []

/-- Replace every remaining newline by `<br>`. -/
def brRep : List Char → List Char
  | '\n' :: rest => "<br>".data ++ brRep rest
  | c :: rest => c :: brRep rest
  | [] => []

/-! ### Stage 12: wrapping (app.js lines 135-137)
`if (!html.startsWith('<')) html = `<p>${html}</p>`` -/

/-- Wrap the fragment in a paragraph unless it already starts with `<`. -/
def wrapP (s : List Char) : List Char :=
  if s.head? = some '<' then s else "<p>".data ++ s ++ "</p>".data

/-! ### The full pipeline, in source order -/

/-- Stages 3-5: inline code, bold, italic. -/
def inlineStages (s : List Char) : List Char :=
  italicStage (boldStage (codeSpanStage s))

/-- Stage 6: the three heading passes, h3 then h2 then h1. -/
def headingStages (s : List Char) : List Char :=
  mapLines h1Rule (mapLines h2Rule (mapLines h3Rule s))

/-- Stages 8-9: unordered-list lines, ul wrapping, ordered-list lines. -/
def listStages (s : List Char) : List Char :=
  mapLines olRule (ulWrapStage (mapLines ulLineRule s))

/-- Stages 10-12: blockquotes, paragraph breaks, line breaks, wrap. -/
def lateStages (s : List Char) : List Char :=
  wrapP (brRep (paraBreak (mapLines bqRule s)))

/-- Everything after the fenced-code-block stage. -/
def afterFence (s : List Char) : List Char :=
  lateStages (listStages (linkStage (headingStages (inlineStages s))))

/-- Everything after the escape stage. -/
def afterEscape (s : List Char) : List Char := afterFence (fenceStage s)

/-- The whole renderer on character lists. -/
def rmL (s : List Char) : List Char := afterEscape (escapeL s)

/-- `renderMarkdown` from app.js lines 91-140. -/
def renderMarkdown (s : String) : String := String.mk (rmL s.data)

/-! ### Observation helpers -/

/-- Whether `pat` occurs as a contiguous substring of `s`. -/
def containsL (s pat : List Char) : Bool :=
  match s with
  | [] => pat.isEmpty
  | _ :: rest => pat.isPrefixOf s || containsL rest pat

/-- Number of positions of `s` at which `pat` occurs. -/
def countSub (s pat : List Char) : Nat :=
  match s with
  | [] => if pat.isEmpty then 1 else 0
  | _ :: rest => (if pat.isPrefixOf s then 1 else 0) + countSub rest pat

/-- Number of positions at which a triple backtick occurs. -/
def count3 (s : List Char) : Nat :=
  match s with
  | c1 :: c2 :: c3 :: rest =>
    (if c1 = btick ∧ c2 = btick ∧ c3 = btick then 1 else 0)
      + count3 (c2 :: c3 :: rest)
  | _ => 0

/-! ## Helper lemmas -/

/-- A single-character replace introduces no occurrence of its own
target character (the replacement contains none and matched characters
are removed). -/
theorem repChar_self_not_mem (t : Char) (rep : List Char) (h : t ∉ rep)
    (s : List Char) : t ∉ repChar t rep s := by
  induction s with
  | nil => simp [repChar]
  | cons c r ih =>
    by_cases hc : c = t
    · simp only [repChar, if_pos hc]
      intro hm
      rcases List.mem_append.mp hm with h1 | h2
      · exact h h1
      · exact ih h2
    · simp only [repChar, if_neg hc]
      intro hm
      rcases List.mem_cons.mp hm with h1 | h2
      · exact hc h1.symm
      · exact ih h2

/-- A single-character replace introduces no character that is absent
from both the input and the replacement. -/
theorem repChar_not_mem (t c : Char) (rep : List Char) (h1 : c ∉ rep)
    (s : List Char) (h2 : c ∉ s) : c ∉ repChar t rep s := by
  induction s with
  | nil => simp [repChar]
  | cons d r ih =>
    have hdr : c ≠ d ∨ True := Or.inr trivial
    have hcd : c ∉ r := fun hm => h2 (List.mem_cons_of_mem d hm)
    by_cases hd : d = t
    · simp only [repChar, if_pos hd]
      intro hm
      rcases List.mem_append.mp hm with ha | hb
      · exact h1 ha
      · exact ih hcd hb
    · simp only [repChar, if_neg hd]
      intro hm
      rcases List.mem_cons.mp hm with ha | hb
      · exact h2 (ha ▸ List.mem_cons_self d r)
      · exact ih hcd hb

/-- No literal `<` survives the escape stage. -/
theorem escapeL_no_lt (s : List Char) : '<' ∉ escapeL s :=
  repChar_not_mem '>' '<' "&gt;".data (by decide) _
    (repChar_self_not_mem '<' "&lt;".data (by decide) _)

/-- No literal `>` survives the escape stage. -/
theorem escapeL_no_gt (s : List Char) : '>' ∉ escapeL s :=
  repChar_self_not_mem '>' "&gt;".data (by decide) _

/-- `takeWhile`/`dropWhile` on a list that is a run of satisfying
characters followed by a failing character. -/
theorem take_drop_while_app (p : Char → Bool) (xs : List Char) (y : Char)
    (t : List Char) (hx : ∀ c ∈ xs, p c = true) (hy : p y = false) :
    (xs ++ y :: t).takeWhile p = xs ∧ (xs ++ y :: t).dropWhile p = y :: t := by
  induction xs with
  | nil => simp [List.takeWhile_cons, List.dropWhile_cons, hy]
  | cons c r ih =>
    have hc : p c = true := hx c (List.mem_cons_self c r)
    have hr := ih (fun d hd => hx d (List.mem_cons_of_mem c hd))
    simp [List.takeWhile_cons, List.dropWhile_cons, hc, hr.1, hr.2]

/-- A global replace whose matcher fails at every position of the input
leaves the input unchanged. -/
theorem scanRepl_eq_self (tm : List Char → Option (List Char × List Char)) :
    ∀ (fuel : Nat) (s : List Char), (∀ i, tm (s.drop i) = none) →
      scanRepl tm fuel s = s := by
  intro fuel
  induction fuel with
  | zero =>
    intro s _
    cases s with
    | nil => rfl
    | cons c r => rfl
  | succ n ih =>
    intro s h
    cases s with
    | nil => rfl
    | cons c r =>
      have h0 : tm (c :: r) = none := h 0
      have h1 : ∀ i, tm (r.drop i) = none := fun i => h (i + 1)
      simp [scanRepl, h0, ih r h1]

/-- Adding a character in front cannot decrease the number of
triple-backtick occurrences. -/
theorem count3_le_cons (c : Char) (t : List Char) : count3 t ≤ count3 (c :: t) := by
  match t with
  | [] => simp [count3]
  | [x] => simp [count3]
  | x :: y :: r =>
    simp only [count3]
    exact Nat.le_add_left _ _

/-- Prepending text cannot decrease the number of triple-backtick
occurrences. -/
theorem count3_le_append (x l : List Char) : count3 l ≤ count3 (x ++ l) := by
  induction x with
  | nil => simp
  | cons c r ih => exact le_trans ih (count3_le_cons c (r ++ l))

/-- A suffix has at most as many triple-backtick occurrences as the
whole list. -/
theorem count3_drop_le (s : List Char) (i : Nat) : count3 (s.drop i) ≤ count3 s := by
  induction s generalizing i with
  | nil => simp
  | cons c r ih =>
    cases i with
    | zero => exact le_refl _
    | succ j => exact le_trans (ih j) (count3_le_cons c r)

/-- A successful split at a closing triple backtick means the list
contains a triple-backtick occurrence. -/
theorem splitTriple_count (l : List Char)
    (h : (splitTriple l).isSome = true) : 1 ≤ count3 l := by
  induction l with
  | nil => simp [splitTriple] at h
  | cons c1 t ih =>
    cases t with
    | nil => simp [splitTriple] at h
    | cons c2 t2 =>
      cases t2 with
      | nil => simp [splitTriple] at h
      | cons c3 rest =>
        rw [splitTriple] at h
        by_cases hb : c1 = btick ∧ c2 = btick ∧ c3 = btick
        · rw [count3, if_pos hb]
          omega
        · rw [if_neg hb] at h
          cases hs : splitTriple (c2 :: c3 :: rest) with
          | none => rw [hs] at h; simp at h
          | some p =>
            have h1 : 1 ≤ count3 (c2 :: c3 :: rest) := ih (by rw [hs]; rfl)
            exact le_trans h1 (count3_le_cons _ _)

/-- A successful fenced-code-block match needs two triple-backtick
occurrences: the opening fence and the closing fence. -/
theorem tryFence_count (s : List Char) (x : List Char × List Char)
    (h : tryFence s = some x) : 2 ≤ count3 s := by
  cases s with
  | nil => simp [tryFence] at h
  | cons c1 t =>
    cases t with
    | nil => simp [tryFence] at h
    | cons c2 t2 =>
      cases t2 with
      | nil => simp [tryFence] at h
      | cons c3 rest =>
        rw [tryFence] at h
        by_cases hb : c1 = btick ∧ c2 = btick ∧ c3 = btick
        · rw [if_pos hb] at h
          split at h
          · rename_i body heq
            split at h
            · rename_i content rest2 heq2
              have h1 : 1 ≤ count3 body := splitTriple_count body (by rw [heq2]; rfl)
              have h2 : count3 body ≤ count3 ('\n' :: body) := count3_le_cons _ _
              have h3 : count3 ('\n' :: body) ≤ count3 rest := by
                conv_rhs => rw [← List.takeWhile_append_dropWhile (p := wordChar) (l := rest)]
                rw [heq]
                exact count3_le_append _ _
              have h4 : count3 rest ≤ count3 (c2 :: c3 :: rest) :=
                le_trans (count3_le_cons c3 rest) (count3_le_cons c2 _)
              have h5 : count3 (c1 :: c2 :: c3 :: rest)
                  = 1 + count3 (c2 :: c3 :: rest) := by
                rw [count3, if_pos hb]
              omega
            · simp at h
          · simp at h
        · rw [if_neg hb] at h
          simp at h

/-- The ordered-list line rule on a line made of a nonempty digit run,
a period, a space, and a nonempty rest: it emits a bare `<li>` item. -/
theorem olRule_match (ds rest : List Char) (hds : ds ≠ [])
    (hdig : ∀ c ∈ ds, c.isDigit = true) (hrest : rest ≠ []) :
    olRule (ds ++ '.' :: ' ' :: rest) = "<li>".data ++ rest ++ "</li>".data := by
  cases ds with
  | nil => exact absurd rfl hds
  | cons d ds2 =>
    cases rest with
    | nil => exact absurd rfl hrest
    | cons r rest2 =>
      have h := take_drop_while_app Char.isDigit (d :: ds2) '.' (' ' :: r :: rest2)
        hdig (by decide)
      simp only [olRule, h.1, h.2]
      rfl

/-- The link matcher on an exact `[label](url)` pattern whose label
contains no `]` and whose url contains no `)`. -/
theorem tryLink_match (label url : List Char) (hl : label ≠ []) (hlb : ']' ∉ label)
    (hu : url ≠ []) (hub : ')' ∉ url) :
    tryLink ('[' :: (label ++ ']' :: '(' :: (url ++ [')']))) =
      some ("<a href=\"".data ++ url
              ++ "\" target=\"_blank\" rel=\"noopener\">".data
              ++ label ++ "</a>".data, []) := by
  cases label with
  | nil => exact absurd rfl hl
  | cons lc lr =>
    cases url with
    | nil => exact absurd rfl hu
    | cons uc ur =>
      have hl1 : ∀ c ∈ lc :: lr, (c != ']') = true := by
        intro c hc
        simp only [bne_iff_ne, ne_eq]
        exact fun e => hlb (e ▸ hc)
      have hu1 : ∀ c ∈ uc :: ur, (c != ')') = true := by
        intro c hc
        simp only [bne_iff_ne, ne_eq]
        exact fun e => hub (e ▸ hc)
      have h1 := take_drop_while_app (fun d => d != ']') (lc :: lr) ']'
        ('(' :: ((uc :: ur) ++ [')'])) hl1 (by decide)
      have h2 := take_drop_while_app (fun d => d != ')') (uc :: ur) ')' [] hu1 (by decide)
      simp only [tryLink, h1.1, h1.2, h2.1, h2.2]
      rfl

/-- The link stage on an input that is exactly one `[label](url)`
pattern rewrites it to the anchor. -/
theorem linkStage_match (label url : List Char) (hl : label ≠ []) (hlb : ']' ∉ label)
    (hu : url ≠ []) (hub : ')' ∉ url) :
    linkStage ('[' :: (label ++ ']' :: '(' :: (url ++ [')']))) =
      "<a href=\"".data ++ url ++ "\" target=\"_blank\" rel=\"noopener\">".data
        ++ label ++ "</a>".data := by
  have ht := tryLink_match label url hl hlb hu hub
  show scanRepl tryLink _ _ = _
  simp only [List.length_cons, scanRepl, ht, List.append_nil]

/-! ## Claims -/

/-- C1: the escape stage replaces `&` then `<` then `>` in that order and
runs before every tag-producing stage; no literal `<` or `>` from the
input text survives it, and rendering "<script>alert(1)</script>"
yields no literal `<script>` tag. -/
theorem C1_escape_before_tags :
    (∀ s : List Char, '<' ∉ escapeL s ∧ '>' ∉ escapeL s)
    ∧ (∀ s : List Char, rmL s = afterFence (fenceStage (escapeL s)))
    ∧ escapeL "&".data = "&amp;".data
    ∧ escapeL "<".data = "&lt;".data
    ∧ escapeL ">".data = "&gt;".data
    ∧ renderMarkdown "<script>alert(1)</script>"
        = "<p>&lt;script&gt;alert(1)&lt;/script&gt;</p>"
    ∧ containsL (rmL "<script>alert(1)</script>".data) "<script>".data = false :=
  ⟨fun s => ⟨escapeL_no_lt s, escapeL_no_gt s⟩, fun _ => rfl,
    by decide, by decide, by decide, by decide, by decide⟩

/-- Witness for C1 at a concrete input containing all three escaped
characters. -/
theorem C1_escape_before_tags_witness :
    '<' ∉ escapeL "a<b&c>d".data ∧ '>' ∉ escapeL "a<b&c>d".data :=
  C1_escape_before_tags.1 "a<b&c>d".data

/-- C2 counterexample: bold markers inside a fenced code block's content
do produce a strong-emphasis span in the output. -/
theorem C2_fence_reinterpreted_cex :
    renderMarkdown "```\n**x**\n```"
      = "<pre><code class=\"language-\"><strong>x</strong></code></pre>"
    ∧ containsL (rmL "```\n**x**\n```".data) "<strong>".data = true :=
  ⟨by decide, by decide⟩

/-- C2 amended: fenced-code-block extraction is applied before the
inline-code, bold and italic stages, but this ordering does not protect
the extracted content: the later stages still rewrite markers inside
the emitted code block. -/
theorem C2_fence_order_amended :
    (∀ s : List Char,
      rmL s = lateStages (listStages (linkStage (headingStages
        (italicStage (boldStage (codeSpanStage (fenceStage (escapeL s)))))))))
    ∧ renderMarkdown "```\n**x**\n```"
        = "<pre><code class=\"language-\"><strong>x</strong></code></pre>" :=
  ⟨fun _ => rfl, by decide⟩

/-- C3 counterexample: a fenced code block with an internal blank line
is cut by the paragraph-break stage, which rewrites the blank line to
`</p><p>` inside the emitted code block. -/
theorem C3_codeblock_split_cex :
    renderMarkdown "```\na\n\nb\n```"
      = "<pre><code class=\"language-\">a</p><p>b</code></pre>"
    ∧ containsL (rmL "```\na\n\nb\n```".data) "</p><p>".data = true :=
  ⟨by decide, by decide⟩

/-- C3 amended: code-block extraction does happen before the
paragraph-break stage, but the paragraph stage still rewrites the blank
lines inside the emitted code block's content to `</p><p>`. -/
theorem C3_codeblock_para_amended :
    (∀ s : List Char,
      rmL s = wrapP (brRep (paraBreak (mapLines bqRule (listStages (linkStage
        (headingStages (inlineStages (fenceStage (escapeL s))))))))))
    ∧ renderMarkdown "```\na\n\nb\n```"
        = "<pre><code class=\"language-\">a</p><p>b</code></pre>" :=
  ⟨fun _ => rfl, by decide⟩

/-- C4: the blockquote stage never fires on an input line beginning with
"> ", because the escape stage has already rewritten `>` to `&gt;` while
the blockquote pattern requires a literal `>`; rendering "> hello"
yields a plain escaped paragraph and no blockquote element. -/
theorem C4_blockquote_dead :
    renderMarkdown "> hello" = "<p>&gt; hello</p>"
    ∧ containsL (rmL "> hello".data) "<blockquote>".data = false
    ∧ bqRule "&gt; hello".data = "&gt; hello".data :=
  ⟨by decide, by decide, by decide⟩

/-- C5: the embedded renderMarkdown is a total pure function of the
input string alone: every input yields an output, and equal inputs
yield equal outputs (the JavaScript body reads and writes no state
outside its local variable, so the embedding is a plain function). -/
theorem C5_total_deterministic :
    (∀ s : String, ∃ r : String, renderMarkdown s = r)
    ∧ (∀ s t : String, s = t → renderMarkdown s = renderMarkdown t) :=
  ⟨fun s => ⟨renderMarkdown s, rfl⟩, fun _ _ h => by rw [h]⟩

/-- Witness for C5 at a concrete input. -/
theorem C5_total_deterministic_witness :
    renderMarkdown "a" = renderMarkdown "a" :=
  C5_total_deterministic.2 "a" "a" rfl

/-- C6: consecutive unordered-list lines are merged into exactly one
ul container holding the three items a, b, c in order (the surviving
newlines between items render as `<br>`), and a two-item run likewise
yields a single container rather than two one-item lists. -/
theorem C6_ul_single_container :
    renderMarkdown "- a\n- b\n- c"
      = "<ul><li>a</li><br><li>b</li><br><li>c</li></ul>"
    ∧ countSub (rmL "- a\n- b\n- c".data) "<ul>".data = 1
    ∧ countSub (rmL "- a\n- b\n- c".data) "</ul>".data = 1
    ∧ countSub (rmL "- a\n- b\n- c".data) "<li>".data = 3
    ∧ renderMarkdown "- x\n- y" = "<ul><li>x</li><br><li>y</li></ul>"
    ∧ countSub (rmL "- x\n- y".data) "<ul>".data = 1 :=
  ⟨by decide, by decide, by decide, by decide, by decide, by decide⟩

/-- C7: a line made of digits, a period, a space and text becomes a bare
`<li>` item, and no ordered-list container (nor any ul) is emitted
around such items. -/
theorem C7_ol_bare_items :
    (∀ ds rest : List Char, ds ≠ [] → (∀ c ∈ ds, c.isDigit = true) → rest ≠ [] →
      olRule (ds ++ '.' :: ' ' :: rest) = "<li>".data ++ rest ++ "</li>".data)
    ∧ renderMarkdown "1. a\n2. b" = "<li>a</li><br><li>b</li>"
    ∧ containsL (rmL "1. a\n2. b".data) "<ol>".data = false
    ∧ containsL (rmL "1. a\n2. b".data) "<ul>".data = false :=
  ⟨olRule_match, by decide, by decide, by decide⟩

/-- Witness for C7 at a concrete ordered-list line. -/
theorem C7_ol_bare_items_witness :
    olRule ("12".data ++ '.' :: ' ' :: "abc".data)
      = "<li>".data ++ "abc".data ++ "</li>".data :=
  C7_ol_bare_items.1 "12".data "abc".data (by decide) (by decide) (by decide)

/-- C8 counterexample: for the input "[x*](u*)", which contains the
pattern `[label](url)` with label "x*" and url "u*", the italic stage
rewrites the asterisks first, so the emitted anchor's href is "u</em>"
rather than the (escaped) url text "u*". -/
theorem C8_link_href_cex :
    renderMarkdown "[x*](u*)"
      = "<a href=\"u</em>\" target=\"_blank\" rel=\"noopener\">x<em></a>"
    ∧ containsL (rmL "[x*](u*)".data) "href=\"u*\"".data = false :=
  ⟨by decide, by decide⟩

/-- C8 amended: when the label and url reach the link stage unchanged
(label nonempty without `]`, url nonempty without `)`), the stage emits
an anchor with the url as href, target="_blank", rel="noopener" and the
label as body; in particular "[x](http://e.com)" renders to exactly
such an anchor. -/
theorem C8_link_anchor_amended :
    (∀ label url : List Char, label ≠ [] → ']' ∉ label → url ≠ [] → ')' ∉ url →
      linkStage ('[' :: (label ++ ']' :: '(' :: (url ++ [')']))) =
        "<a href=\"".data ++ url ++ "\" target=\"_blank\" rel=\"noopener\">".data
          ++ label ++ "</a>".data)
    ∧ renderMarkdown "[x](http://e.com)"
        = "<a href=\"http://e.com\" target=\"_blank\" rel=\"noopener\">x</a>" :=
  ⟨linkStage_match, by decide⟩

/-- Witness for C8 at a concrete label and url. -/
theorem C8_link_anchor_amended_witness :
    linkStage ('[' :: ("x".data ++ ']' :: '(' :: ("u".data ++ [')']))) =
      "<a href=\"".data ++ "u".data
        ++ "\" target=\"_blank\" rel=\"noopener\">".data
        ++ "x".data ++ "</a>".data :=
  C8_link_anchor_amended.1 "x".data "u".data
    (by decide) (by decide) (by decide) (by decide)

/-- C9: when the text has at most one triple-backtick occurrence (an
opening fence with no later closing marker), the fenced-code-block
stage leaves the text unchanged, and the backticks of an unclosed
fence stay literal in the rendered output. -/
theorem C9_unclosed_fence :
    (∀ s : List Char, count3 s ≤ 1 → fenceStage s = s)
    ∧ renderMarkdown "```js\ncode here" = "<p>```js<br>code here</p>" := by
  constructor
  · intro s h
    show scanRepl tryFence s.length s = s
    apply scanRepl_eq_self
    intro i
    cases htf : tryFence (s.drop i) with
    | none => rfl
    | some x =>
      have h2 := tryFence_count _ x htf
      have h3 := count3_drop_le s i
      omega
  · decide

/-- Witness for C9 at a concrete unclosed fence. -/
theorem C9_unclosed_fence_witness :
    count3 "```js\ncode here".data ≤ 1
    ∧ fenceStage "```js\ncode here".data = "```js\ncode here".data :=
  ⟨by decide, C9_unclosed_fence.1 "```js\ncode here".data (by decide)⟩

/-- C10: a fragment not beginning with `<` is wrapped in a single
paragraph tag (so the empty input renders to "<p></p>"), while a
fragment already beginning with `<` is not wrapped, so the `</p><p>`
inserted for a blank line can leave a closing paragraph tag with no
matching opener, as for a heading followed by a blank line and text. -/
theorem C10_wrap_unbalanced :
    (∀ s : List Char, ¬ s.head? = some '<' →
      wrapP s = "<p>".data ++ s ++ "</p>".data)
    ∧ renderMarkdown "" = "<p></p>"
    ∧ renderMarkdown "# T\n\nhello" = "<h1>T</h1></p><p>hello"
    ∧ containsL "<h1>T</h1>".data "<p>".data = false := by
  refine ⟨fun s h => ?_, by decide, by decide, by decide⟩
  unfold wrapP
  rw [if_neg h]

/-- Witness for C10 at a concrete fragment not beginning with `<`. -/
theorem C10_wrap_unbalanced_witness :
    wrapP "x".data = "<p>".data ++ "x".data ++ "</p>".data :=
  C10_wrap_unbalanced.1 "x".data (by decide)
